import Mathlib

/-!
Verification development for the IPTV catalog/EPG addon.

The development shallowly embeds the catalog/EPG synchronization core of the
repository: the env-mode refreshers (`fetchM3UEnv` / `fetchEPGEnv` of
src/server.js), the Now/Next resolvers (`getNowNextFromEPG` of src/server.js
and `getNowNext` of src/unnamed/part_013), the guide-map builder shared by
`fetchEPGEnv` / `fetchEPGFromUrl`, the ad-hoc playlist parser `parseM3U` of
src/addon.js, the catalog handlers (env-mode handler of src/server.js and the
paginated handler of src/addon.js), the `/proxy` stream relay of
src/server.js / src/unnamed/part_008, and the parameter reader `readParams`
of src/server.js.

Modelling conventions:
* JavaScript strings are Lean `String`s; JS falsiness of a string is the test
  `s ≠ ""`, captured by `jsOr`.
* The Now/Next resolvers keep the stored XMLTV stamp strings and parse them
  at query time through `dayjsNoPluginParse`, which models `dayjs(str, fmt)`
  as the repository actually configures dayjs: core only, no
  `customParseFormat` plugin, so the format argument is ignored and the
  spec's offset-bearing stamps are Invalid Dates.  `isAfter` / `isBefore`
  are strict comparisons that are false against an Invalid Date.  (In the
  guide-grouping model, which never compares timestamps, the start/stop
  payload is relabelled to `Int`.)
* JS objects used as string-keyed dictionaries are association lists
  (`List (String × _)`) with `List.lookup`; JS `Set` (insertion-ordered) is an
  in-order deduplicated `List String`.
* Fallible network fetches are `Except String _` parameters: the parsed
  document on success, the thrown error on failure.
-/

/-- JS `a || b` for strings: `a` when truthy (non-empty), else `b`. -/
def jsOr (a b : String) : String := if a ≠ "" then a else b

/-- JS `String.prototype.includes` (substring test). -/
def jsIncludes (s pat : String) : Bool := (s.splitOn pat).length != 1

/-! ### UTF-8 / URI-component codecs

`encodeURIComponent` / `decodeURIComponent` are JS builtins used by the source
(channel ids in src/addon.js, the Unsplash background URL, `readParams`, and
the `/proxy` handler).  They are modelled byte-exactly over manually encoded
UTF-8 bytes (as `Nat`s) so that all definitions stay kernel-evaluable. -/

/-- The UTF-8 bytes (as `Nat`s) of one scalar value. -/
def utf8EncodeChar (c : Char) : List Nat :=
  let n := c.toNat
  if n < 128 then [n]
  else if n < 2048 then [192 + n / 64, 128 + n % 64]
  else if n < 65536 then [224 + n / 4096, 128 + (n / 64) % 64, 128 + n % 64]
  else [240 + n / 262144, 128 + (n / 4096) % 64, 128 + (n / 64) % 64, 128 + n % 64]

/-- Is `b` a UTF-8 continuation byte (`10xxxxxx`)? -/
def isUtf8Cont (b : Nat) : Bool := 128 ≤ b && b < 192

/-- Strict UTF-8 decoder over byte values; `none` on malformed input
(stray/missing continuation bytes, overlong forms, surrogates, out-of-range),
matching the `URIError` conditions of `decodeURIComponent`. -/
def utf8Decode : List Nat → Option (List Char)
  | [] => some []
  | b :: rest =>
    if b < 128 then
      match utf8Decode rest with
      | some cs => some (Char.ofNat b :: cs)
      | none => none
    else if b < 192 then none
    else if b < 224 then
      match rest with
      | c1 :: rest2 =>
        if isUtf8Cont c1 then
          let cp := (b - 192) * 64 + (c1 - 128)
          if 128 ≤ cp then
            match utf8Decode rest2 with
            | some cs => some (Char.ofNat cp :: cs)
            | none => none
          else none
        else none
      | [] => none
    else if b < 240 then
      match rest with
      | c1 :: c2 :: rest2 =>
        if isUtf8Cont c1 && isUtf8Cont c2 then
          let cp := (b - 224) * 4096 + (c1 - 128) * 64 + (c2 - 128)
          if 2048 ≤ cp && (cp < 55296 || 57344 ≤ cp) then
            match utf8Decode rest2 with
            | some cs => some (Char.ofNat cp :: cs)
            | none => none
          else none
        else none
      | _ => none
    else if b < 248 then
      match rest with
      | c1 :: c2 :: c3 :: rest2 =>
        if isUtf8Cont c1 && isUtf8Cont c2 && isUtf8Cont c3 then
          let cp := (b - 240) * 262144 + (c1 - 128) * 4096 + (c2 - 128) * 64 + (c3 - 128)
          if 65536 ≤ cp && cp ≤ 1114111 then
            match utf8Decode rest2 with
            | some cs => some (Char.ofNat cp :: cs)
            | none => none
          else none
        else none
      | _ => none
    else none

/-- Value of a hex digit character, `none` otherwise. -/
def hexDigitVal (c : Char) : Option Nat :=
  if 48 ≤ c.toNat ∧ c.toNat ≤ 57 then some (c.toNat - 48)
  else if 97 ≤ c.toNat ∧ c.toNat ≤ 102 then some (c.toNat - 87)
  else if 65 ≤ c.toNat ∧ c.toNat ≤ 70 then some (c.toNat - 55)
  else none

/-- Percent-unescape pass of `decodeURIComponent`: `%HH` contributes the byte
`HH`, any other character contributes its own UTF-8 bytes; `none` when a `%`
is not followed by two hex digits. -/
def percentBytes : List Char → Option (List Nat)
  | [] => some []
  | c :: rest =>
    if c = '%' then
      match rest with
      | h1 :: h2 :: rest2 =>
        match hexDigitVal h1, hexDigitVal h2 with
        | some a, some b =>
          match percentBytes rest2 with
          | some bs => some ((a * 16 + b) :: bs)
          | none => none
        | _, _ => none
      | _ => none
    else
      match percentBytes rest with
      | some bs => some (utf8EncodeChar c ++ bs)
      | none => none

/-- JS `decodeURIComponent(s)` guarded by the source's `try/catch`: on a
`URIError` (malformed escape or invalid UTF-8) the original string is kept,
as in `readParams`' `decode` helper. -/
def jsDecodeURIComponent (s : String) : String :=
  match percentBytes s.data with
  | some bs =>
    match utf8Decode bs with
    | some cs => String.mk cs
    | none => s
  | none => s

/-- Is byte `b` left unescaped by `encodeURIComponent`
(`A-Z a-z 0-9 - _ . ! ~ * ' ( )`)? -/
def uriUnreserved (b : Nat) : Bool :=
  (65 ≤ b && b ≤ 90) || (97 ≤ b && b ≤ 122) || (48 ≤ b && b ≤ 57) ||
  b = 45 || b = 95 || b = 46 || b = 33 || b = 126 || b = 42 || b = 39 ||
  b = 40 || b = 41

/-- Uppercase hex digit character of `n < 16`. -/
def hexChar (n : Nat) : Char :=
  if n < 10 then Char.ofNat (48 + n) else Char.ofNat (55 + n)

/-- Decimal value of a digit character list. -/
def decDigitsVal (l : List Char) : Nat :=
  l.foldl (fun a c => a * 10 + (c.toNat - 48)) 0

/-- JS `encodeURIComponent(s)`. -/
def encodeURIComponent (s : String) : String :=
  String.mk ((s.data.flatMap utf8EncodeChar).flatMap fun b =>
    if uriUnreserved b then [Char.ofNat b]
    else ['%', hexChar (b / 16), hexChar (b % 16)])

/-! ### Guide (EPG) data model -/

/-- One stored programme entry (`epgData[channelId]` element in
src/server.js `fetchEPGEnv`): start/stop instants plus title and description
after the `|| 'No Title'` / `|| ''` defaults. -/
structure Programme where
  start : Int
  stop : Int
  title : String
  desc : String
deriving DecidableEq, Repr

/-- One `<programme>` element as produced by xml2js: `channel`, `start`,
`stop` attributes and the raw title/description texts (`""` when the element
or its text is missing, matching JS falsiness of `prog.title?.[0]?._`). -/
structure RawProgramme where
  channel : String
  start : Int
  stop : Int
  title : String
  desc : String
deriving DecidableEq, Repr

/-- The stored entry built from a raw programme element, with the
`|| 'No Title'` and `|| ''` defaults of `fetchEPGEnv` / `fetchEPGFromUrl`. -/
def progOf (p : RawProgramme) : Programme :=
  { start := p.start, stop := p.stop, title := jsOr p.title "No Title", desc := p.desc }

/-- The guide mapping `epgData`: a string-keyed dictionary from
guide-channel-id to its programme sequence. -/
abbrev EpgMap : Type := List (String × List Programme)

/-- JS read `epgObj[channelId] || []`. -/
def epgLookup (m : EpgMap) (c : String) : List Programme :=
  match List.lookup c m with
  | some l => l
  | none => []

/-- One iteration of the grouping loop of `fetchEPGEnv` / `fetchEPGFromUrl`:
`if (!epgData[channelId]) epgData[channelId] = []; epgData[channelId].push(e)`. -/
def epgPush (m : EpgMap) (c : String) (e : Programme) : EpgMap :=
  match m with
  | [] => [(c, [e])]
  | (k, l) :: rest =>
    if k = c then (k, l ++ [e]) :: rest else (k, l) :: epgPush rest c e

/-- The grouping loop of `fetchEPGEnv` (src/server.js lines 72-83) and
`fetchEPGFromUrl` (lines 434-445): iterate the `<programme>` elements in
document order, appending each to its channel's bucket. -/
def buildEpgMap (ps : List RawProgramme) : EpgMap :=
  ps.foldl (fun m p => epgPush m p.channel (progOf p)) []

/-! ### Now/Next resolvers

The resolvers store the XMLTV stamp strings verbatim and parse them at query
time with `dayjs(str, 'YYYYMMDDHHmmss ZZ')` (respectively `'... Z'`).  No
file of the repository loads dayjs's `customParseFormat` plugin
(`require('dayjs')` only, no `.extend`), so the format argument is ignored:
dayjs falls back to its core ISO regex and then to `new Date(str)`.  A bare
fourteen-digit stamp is accepted by the core regex (as a local calendar
time); a stamp carrying the spec's ` ±HHMM` offset suffix matches neither
and becomes an Invalid Date, against which `isAfter` / `isBefore` are always
false. -/

/-- A stored programme entry exactly as `fetchEPGEnv` keeps it: the raw
`start` / `stop` attribute strings plus defaulted title/description. -/
structure StoredProgramme where
  start : String
  stop : String
  title : String
  desc : String
deriving DecidableEq, Repr

/-- The guide dictionary holding stored (string-stamped) programmes. -/
abbrev EpgMapS : Type := List (String × List StoredProgramme)

/-- JS read `epgObj[channelId] || []` over stored programmes. -/
def epgLookupS (m : EpgMapS) (c : String) : List StoredProgramme :=
  match List.lookup c m with
  | some l => l
  | none => []

/-- Recognizer for the spec's XMLTV timestamp format: fourteen digits, a
space, a sign, and a four-digit offset (e.g. `20240101100000 +0000`). -/
def xmltvOffsetStamp (s : String) : Bool :=
  decide (s.data.length = 20) &&
  (s.data.take 14).all (fun c => c.isDigit) &&
  (s.data.get? 14 == some ' ') &&
  ((s.data.get? 15 == some '+') || (s.data.get? 15 == some '-')) &&
  (s.data.drop 16).all (fun c => c.isDigit)

/-- Modelled from the source's dayjs usage: `dayjs(str, format)` where only
core dayjs is loaded, so the format is ignored.  A bare fourteen-digit stamp
parses (dayjs's core ISO regex accepts it as a local calendar time; it is
represented by its digit value, which is order-isomorphic to the instant for
this fixed-width shape).  Any other shape — in particular the spec's
offset-bearing XMLTV stamp, which defeats both the ISO regex and V8's
`new Date` — yields an Invalid Date, modelled as `none`. -/
def dayjsNoPluginParse (s : String) : Option Int :=
  if s.data.length = 14 ∧ s.data.all (fun c => c.isDigit) then
    some (decDigitsVal s.data : Int)
  else none

/-- `now.isAfter(d)` for a parsed stamp `d`: strict comparison; false when
`d` is an Invalid Date (NaN comparisons are false). -/
def dayjsIsAfterB (t : Int) : Option Int → Bool
  | some v => decide (v < t)
  | none => false

/-- `now.isBefore(d)` — equivalently `d.isAfter(now)` as used by part_013's
first-future search: strict comparison; false when `d` is Invalid. -/
def dayjsIsBeforeB (t : Int) : Option Int → Bool
  | some v => decide (t < v)
  | none => false

/-- The scan loop of `getNowNextFromEPG` (src/server.js lines 98-106) and of
the second variant's `getNowNext` (lines 939-949): walk the programme array;
at the first entry with `now.isAfter(start) && now.isBefore(stop)` (parsing
each stamp with plugin-less dayjs) return it as current together with
`programs[i + 1] || null`. -/
def scanNowNextRaw (t : Int) :
    List StoredProgramme → Option StoredProgramme × Option StoredProgramme
  | [] => (none, none)
  | p :: rest =>
    if dayjsIsAfterB t (dayjsNoPluginParse p.start) &&
        dayjsIsBeforeB t (dayjsNoPluginParse p.stop) then
      (some p, rest.head?)
    else scanNowNextRaw t rest

/-- `getNowNextFromEPG(epgObj, channelId)` of src/server.js evaluated at the
`dayjs()` instant `t`. -/
def getNowNextFromEPGS (m : EpgMapS) (channelId : String) (t : Int) :
    Option StoredProgramme × Option StoredProgramme :=
  scanNowNextRaw t (epgLookupS m channelId)

/-- `getNowNext(channel)` of src/unnamed/part_013 (lines 54-63) evaluated at
the `dayjs()` instant `t`: current is the first entry whose parsed stamps
strictly contain `t`; next is the first entry whose parsed `start` is after
`t` (`dayjs(p.start, fmt).isAfter(now)`), found independently. -/
def getNowNextP13S (epg : EpgMapS) (tvgId : String) (t : Int) :
    Option StoredProgramme × Option StoredProgramme :=
  ((epgLookupS epg tvgId).find? fun p =>
    dayjsIsAfterB t (dayjsNoPluginParse p.start) &&
      dayjsIsBeforeB t (dayjsNoPluginParse p.stop),
   (epgLookupS epg tvgId).find? fun p => dayjsIsBeforeB t (dayjsNoPluginParse p.start))

/-! ### Env-mode refresh state (src/server.js lines 22-90) -/

/-- One playlist item as produced by `iptv-playlist-parser`: attribute fields
are raw strings, `""` when the attribute is absent (JS-falsy). -/
structure M3UItem where
  name : String
  url : String
  tvgId : String
  tvgName : String
  tvgLogo : String
  groupTitle : String
deriving DecidableEq, Repr

/-- The env-mode channel record built by `fetchM3UEnv` (src/server.js
lines 40-51). -/
structure ChannelEnv where
  id : String
  name : String
  url : String
  logo : Option String
  category : String
  tvgId : String
deriving DecidableEq, Repr

/-- The per-item mapping of `fetchM3UEnv`: positional id `channel-<index>`,
category defaulted to `Uncategorized`, `tvgId` falling back through
`tvg.id || tvg.name || name`. -/
def envChannelOf (idx : Nat) (it : M3UItem) : ChannelEnv :=
  { id := "channel-" ++ toString idx
    name := it.name
    url := it.url
    logo := if it.tvgLogo ≠ "" then some it.tvgLogo else none
    category := jsOr it.groupTitle "Uncategorized"
    tvgId := jsOr it.tvgId (jsOr it.tvgName it.name) }

/-- The channel sequence built by one successful `fetchM3UEnv` parse pass. -/
def envChannels (items : List M3UItem) : List ChannelEnv :=
  items.enum.map fun p => envChannelOf p.1 p.2

/-- The `categories` set accumulated by `fetchM3UEnv` during the map:
insertion-ordered distinct category labels (JS `Set`). -/
def envCategories (items : List M3UItem) : List String :=
  items.foldl
    (fun acc it =>
      let c := jsOr it.groupTitle "Uncategorized"
      if c ∈ acc then acc else acc ++ [c])
    []

/-- The module-level mutable state of the env-mode addon
(src/server.js lines 22-24): `channels`, `categories`, `epgData`. -/
structure EnvState where
  channels : List ChannelEnv
  categories : List String
  epgData : EpgMap

/-- `fetchM3UEnv` (src/server.js lines 27-59) as a state transformer.
`hasUrl` is whether `M3U_URL` is set; `result` is the outcome of the
fetch-and-parse (`.error` covers both network and parse throws, which land in
the same `catch`).  On the no-URL path and in the `catch`, the source assigns
`channels = []` and `categories = new Set()`. -/
def fetchM3UEnvModel (hasUrl : Bool) (result : Except String (List M3UItem))
    (prior : EnvState) : EnvState :=
  if !hasUrl then { prior with channels := [], categories := [] }
  else
    match result with
    | .ok items =>
      { prior with channels := envChannels items, categories := envCategories items }
    | .error _ => { prior with channels := [], categories := [] }

/-- `fetchEPGEnv` (src/server.js lines 61-90) as a state transformer: on the
no-URL path and in the `catch`, the source assigns `epgData = {}`; on success
it rebuilds the guide map from the programme elements. -/
def fetchEPGEnvModel (hasUrl : Bool) (result : Except String (List RawProgramme))
    (prior : EnvState) : EnvState :=
  if !hasUrl then { prior with epgData := [] }
  else
    match result with
    | .ok progs => { prior with epgData := buildEpgMap progs }
    | .error _ => { prior with epgData := [] }

/-! ### The ad-hoc playlist parser of src/addon.js (`parseM3U`, lines 31-74) -/

/-- Capture of the JS regex `/,(.+)$/`: everything after the leftmost comma
that is followed by at least one character, `none` when no such comma
exists. -/
def jsMatchAfterComma (s : String) : Option String :=
  match s.splitOn "," with
  | [] => none
  | [_] => none
  | _ :: tl =>
    let r := String.intercalate "," tl
    if r = "" then none else some r

/-- Capture of the JS regex `/attr="([^"]+)"/`: at each occurrence of
`attr="`, in order, try to take a non-empty run of non-quote characters
terminated by a closing quote; the first occurrence where this succeeds
wins.  Known corner divergence from the regex engine: when a value region
itself contains the literal `attr="` before any closing quote, this model
truncates the run at that inner occurrence while JS captures across it —
an adversarial-input corner that does not affect which entries are emitted
or their URLs. -/
def jsAttrMatch (line attr : String) : Option String :=
  ((line.splitOn (attr ++ "=\"")).tail).findSome? fun t =>
    let v := t.takeWhile (fun c => c ≠ '"')
    if v ≠ "" ∧ v.length < t.length then some v else none

/-- The channel record pushed by `parseM3U` in src/addon.js (lines 53-64);
the constant `posterShape: 'square'` / `type: 'channel'` fields are elided. -/
structure ChannelA where
  id : String
  name : String
  poster : Option String
  background : Option String
  logo : Option String
  description : String
  genre : List String
  url : String
deriving DecidableEq, Repr

/-- Building one channel record from an `#EXTINF` line `l` and the raw
following line `nx` (src/addon.js lines 45-64): regex extraction happens on
the trimmed metadata line, the URL is the trimmed next line. -/
def mkChannel (l nx : String) : ChannelA :=
  let line := l.trim
  let channelName :=
    match jsMatchAfterComma line with
    | some s => s.trim
    | none => "Unknown Channel"
  let logo := jsAttrMatch line "tvg-logo"
  let group :=
    match jsAttrMatch line "group-title" with
    | some g => g
    | none => "General"
  { id := "iptv:" ++ encodeURIComponent channelName
    name := channelName
    poster := logo
    background := logo
    logo := logo
    description := "IPTV Channel - " ++ group
    genre := [group]
    url := nx.trim }

/-- The line loop of `parseM3U` (src/addon.js lines 39-67): at each index,
if the trimmed line starts with `#EXTINF:` and `lines[i + 1]` exists, is
non-empty (JS truthiness) and does not start with `#` (checked untrimmed),
one channel is pushed; the loop always advances by one line. -/
def parseM3ULoop : List String → List ChannelA
  | [] => []
  | l :: rest =>
    (if (l.trim).startsWith "#EXTINF:" then
      match rest.head? with
      | some nx => if nx ≠ "" ∧ ¬nx.startsWith "#" then [mkChannel l nx] else []
      | none => []
    else []) ++ parseM3ULoop rest

/-- `parseM3U` applied to fetched playlist text (the fetch itself and its
`catch`-to-`[]` wrapper are outside the model): split on newline, run the
line loop.  The loop is total, so a dropped entry can never abort the
parse. -/
def parseM3U (text : String) : List ChannelA :=
  parseM3ULoop (text.splitOn "\n")

/-! ### The paginated catalog handler of src/addon.js (lines 94-119) -/

/-- Hex value of a hex-digit character list. -/
def hexDigitsVal (l : List Char) : Nat :=
  l.foldl (fun a c => a * 16 + ((hexDigitVal c).getD 0)) 0

/-- Does the character list begin with a `0x` / `0X` hex marker? -/
def jsHexPrefix : List Char → Bool
  | '0' :: c :: _ => c == 'x' || c == 'X'
  | _ => false

/-- JS `parseInt(s)` (radix auto-detected): skip leading whitespace, an
optional sign, then the longest `0x`-hex or decimal digit prefix; `none`
models `NaN`. -/
def jsParseInt (s : String) : Option Int :=
  let t := s.data.dropWhile Char.isWhitespace
  let neg := t.head? == some '-'
  let t2 := if t.head? == some '-' || t.head? == some '+' then t.tail else t
  if jsHexPrefix t2 then
    let ds := (t2.drop 2).takeWhile fun c => (hexDigitVal c).isSome
    if ds.isEmpty then none
    else some ((if neg then -1 else 1) * (hexDigitsVal ds : Int))
  else
    let ds := t2.takeWhile Char.isDigit
    if ds.isEmpty then none
    else some ((if neg then -1 else 1) * (decDigitsVal ds : Int))

/-- `parseInt(args.extra.skip) || 0`: an absent extra (`parseInt(undefined)`)
or unparsable string is `NaN`, which `|| 0` turns into 0. -/
def jsParseIntOr0 (v : Option String) : Int :=
  match v with
  | none => 0
  | some s =>
    match jsParseInt s with
    | some n => n
    | none => 0

/-- JS index normalization of `Array.prototype.slice`: negative indices
count from the end, clamped to `[0, len]`. -/
def jsSliceNorm (len : Nat) (x : Int) : Nat :=
  if x < 0 then (x + len).toNat else min x.toNat len

/-- JS `arr.slice(s, e)`. -/
def jsSlice {α : Type} (l : List α) (s e : Int) : List α :=
  (l.take (jsSliceNorm l.length e)).drop (jsSliceNorm l.length s)

/-- The meta object the addon.js catalog handler maps each channel to
(lines 104-114); the constant `type`/`posterShape` fields are elided. -/
structure MetaA where
  id : String
  name : String
  poster : Option String
  background : Option String
  logo : Option String
  description : String
  genre : List String
deriving DecidableEq, Repr

/-- Projection of a channel record to its catalog meta (src/addon.js
lines 104-114). -/
def metaOfA (c : ChannelA) : MetaA :=
  { id := c.id, name := c.name, poster := c.poster, background := c.background
    logo := c.logo, description := c.description, genre := c.genre }

/-- The catalog handler of src/addon.js (lines 94-119): for the
`channel`/`iptv_channels` catalog, paginate with
`channels.slice(skip, skip + 100)` where `skip = parseInt(extra.skip) || 0`;
any other request yields no metas. -/
def addonCatalogHandler (ty cid : String) (skipRaw : Option String)
    (channels : List ChannelA) : List MetaA :=
  if ty = "channel" ∧ cid = "iptv_channels" then
    let skip := jsParseIntOr0 skipRaw
    (jsSlice channels skip (skip + 100)).map metaOfA
  else []

/-! ### Env-mode catalog handler (src/server.js lines 139-156) -/

/-- `/\s+/g` replacement state machine: each maximal whitespace run becomes
one `+` (Lean's `Char.isWhitespace` stands in for the JS `\s` class). -/
def replaceRunsAux : Bool → List Char → List Char
  | _, [] => []
  | prevWs, c :: rest =>
    if c.isWhitespace then
      if prevWs then replaceRunsAux true rest else '+' :: replaceRunsAux true rest
    else c :: replaceRunsAux false rest

/-- JS `s.replace(/\s+/g, '+')`. -/
def jsReplaceWsPlus (s : String) : String := String.mk (replaceRunsAux false s.data)

/-- `getUnsplashImage` (src/server.js lines 111-114). -/
def getUnsplashImage (category : String) : String :=
  "https://source.unsplash.com/1600x900/?" ++
    encodeURIComponent (jsReplaceWsPlus (jsOr category "tv"))

/-- The meta object of the env-mode catalog handler (src/server.js
lines 147-154); the constant `type: 'tv'` field is elided. -/
structure MetaEnv where
  id : String
  name : String
  poster : Option String
  background : String
  description : String
deriving DecidableEq, Repr

/-- Projection of an env channel to its catalog meta (src/server.js
lines 147-154). -/
def metaOfEnv (ch : ChannelEnv) : MetaEnv :=
  { id := ch.id, name := ch.name, poster := ch.logo
    background := getUnsplashImage ch.category
    description := "Live stream for " ++ ch.name }

/-- The env-mode catalog handler (src/server.js lines 139-156): filter by
`extra.genre` unless it is absent (`""`, JS-falsy) or the reserved value
`All`, then map to metas. -/
def catalogEnv (genre : String) (chs : List ChannelEnv) : List MetaEnv :=
  (if genre ≠ "" ∧ genre ≠ "All" then chs.filter fun ch => ch.category == genre
   else chs).map metaOfEnv

/-! ### The `/proxy` stream relay (src/server.js lines 1087-1168,
src/unnamed/part_008 lines 28-109; the two handlers are identical) -/

/-- `new URL(url).origin`, simplified to scheme + host(:port) splitting for
well-formed absolute http(s) URLs; the `URIError` throw of `new URL` on
malformed input (which the handler's `catch` turns into a 502) is not
modelled. -/
def urlOrigin (url : String) : String :=
  match url.splitOn "://" with
  | scheme :: rest :: _ => scheme ++ "://" ++ (rest.splitOn "/").headD ""
  | _ => ""

/-- The origin's final HTTP response: status, content-type header (`""` when
absent, JS-falsy) and remaining headers. -/
structure OriginResponse where
  status : Nat
  contentType : String
  headers : List (String × String)
deriving DecidableEq, Repr

/-- One hop of the origin's response chain: a redirect or a final
response. -/
inductive OriginStep where
  | redirectTo (location : String)
  | final (resp : OriginResponse)
deriving DecidableEq, Repr

/-- The client's inbound relay request: the `url` query parameter and the
inbound headers (which the handler never reads). -/
structure InboundRequest where
  urlParam : String
  headers : List (String × String)
deriving DecidableEq, Repr

/-- The fixed header set sent to the origin (src/server.js lines 1096-1106):
a rotated User-Agent and constants; the inbound request's headers are not
consulted, so no `Range` header is ever forwarded. -/
def proxyForwardHeaders (ua url : String) : List (String × String) :=
  [("User-Agent", ua),
   ("Accept", "*/*"),
   ("Accept-Language", "en-US,en;q=0.9"),
   ("Referer", jsOr (urlOrigin url) "https://www.google.com/"),
   ("Origin", jsOr (urlOrigin url) "https://www.google.com/"),
   ("DNT", "1"),
   ("Connection", "keep-alive"),
   ("Accept-Encoding", "identity"),
   ("Cache-Control", "no-cache")]

/-- `response.headers.get('content-type') || (url-extension fallback)`
(src/server.js lines 1136-1139). -/
def contentTypeFor (url originCT : String) : String :=
  if originCT ≠ "" then originCT
  else if jsIncludes url ".m3u8" then "application/vnd.apple.mpegurl"
  else if jsIncludes url ".mpd" then "application/dash+xml"
  else "video/mp4"

/-- The fixed response header set of the success path (src/server.js
lines 1141-1147): `Accept-Ranges: bytes` is hardcoded; the origin's
`Content-Range` / `Content-Length` are not copied. -/
def proxyResponseHeaders (url : String) (r : OriginResponse) : List (String × String) :=
  [("Content-Type", contentTypeFor url r.contentType),
   ("Cache-Control", "no-cache, no-store, must-revalidate"),
   ("Access-Control-Allow-Origin", "*"),
   ("Accept-Ranges", "bytes"),
   ("Connection", "keep-alive")]

/-- The response sent back to the relay's client. -/
structure ClientResponse where
  status : Nat
  headers : List (String × String)
deriving DecidableEq, Repr

/-- Modelled from the spec: the redirect following performed inside the
`node-fetch` library (not part of src/), configured by the handler with
`redirect: 'follow', follow: 5` — redirects are followed up to the `follow`
bound and the fetch rejects on exceeding it ("Follows HTTP redirects up to a
small bounded count (5 is typical); on exceeding the bound, fails the relay
rather than looping"). -/
def fetchFollow : Nat → List OriginStep → Except String OriginResponse
  | _, [] => .error "no response from origin"
  | _, .final r :: _ => .ok r
  | 0, .redirectTo _ :: _ => .error "maximum redirect reached"
  | b + 1, .redirectTo _ :: rest => fetchFollow b rest

/-- The `/proxy` handler (src/server.js lines 1087-1168): decode the `url`
parameter, reject empty with 400, fetch with the fixed forward headers and a
redirect budget of 5; a surviving 3xx-with-location is re-dispatched through
the relay (Express `res.redirect`, 302); otherwise reply 200 with the fixed
response header set and pipe the body; any fetch failure lands in the
`catch` as a 502.  The first component is the header set sent to the origin
(`none` when no origin request was made). -/
def relayProxy (req : InboundRequest) (ua : String) (chain : List OriginStep) :
    Option (List (String × String)) × ClientResponse :=
  let url := jsDecodeURIComponent req.urlParam
  if url = "" then
    (none, { status := 400, headers := [("Content-Type", "application/json")] })
  else
    let fwd := proxyForwardHeaders ua url
    match fetchFollow 5 chain with
    | .ok r =>
      if r.status ∈ [301, 302, 303, 307, 308] ∧ (r.headers.lookup "location").isSome then
        (some fwd,
         { status := 302
           headers := [("Location",
             "/proxy?url=" ++ encodeURIComponent ((r.headers.lookup "location").getD ""))] })
      else
        (some fwd, { status := 200, headers := proxyResponseHeaders url r })
    | .error _ =>
      (some fwd, { status := 502, headers := [("Content-Type", "application/json")] })

/-! ### `readParams` (src/server.js lines 332-368) -/

/-- The six query parameters `readParams` handles. -/
inductive PKey where
  | m3uUrl
  | epgUrl
  | host
  | user
  | pass
  | genre
deriving DecidableEq, Repr

/-- A raw query: each key either absent or a raw string value. -/
abbrev RawQuery : Type := PKey → Option String

/-- A parameter assignment; `""` is JS-falsy (absent). -/
abbrev ParamsMap : Type := PKey → String

/-- The `decode` helper of `readParams`: `v ? decodeURIComponent(v) : ""`
with the `catch` returning the raw value. -/
def decodeParam (v : Option String) : String :=
  match v with
  | none => ""
  | some s => jsDecodeURIComponent s

/-- `readParams(req)` together with its side effect on `global._lastParams`
(src/server.js lines 344-367): per key, a truthy decoded query value is
stored into the global; a falsy one is replaced by the stored value when that
is truthy.  Returns (params result, new global store). -/
def readParams (q : RawQuery) (st : ParamsMap) : ParamsMap × ParamsMap :=
  let p : ParamsMap := fun k => decodeParam (q k)
  (fun k => if p k ≠ "" then p k else if st k ≠ "" then st k else p k,
   fun k => if p k ≠ "" then p k else st k)

/-- The empty `global._lastParams` store at process start. -/
def emptyStore : ParamsMap := fun _ => ""

/-- Thread a sequence of requests through the process-wide store. -/
def runStore : List RawQuery → ParamsMap → ParamsMap
  | [], st => st
  | q :: rest, st => runStore rest (readParams q st).2

/-! ### Concrete instances used by counterexamples and witnesses -/

/-- A stored guide with two spec-format programmes on channel `"g"`:
`[10:00, 11:00)` "Morning" and `[11:00, 12:00)` "Noon" on 2024-01-01,
stamps carrying the `+0000` offset exactly as XMLTV emits them. -/
def exEpgS : EpgMapS :=
  [("g", [⟨"20240101100000 +0000", "20240101110000 +0000", "Morning", ""⟩,
          ⟨"20240101110000 +0000", "20240101120000 +0000", "Noon", ""⟩])]

/-- Three already-parsed addon.js channel records. -/
def exChannelsA : List ChannelA :=
  [⟨"iptv:A", "A", none, none, none, "IPTV Channel - General", ["General"], "http://s/a"⟩,
   ⟨"iptv:B", "B", none, none, none, "IPTV Channel - General", ["General"], "http://s/b"⟩,
   ⟨"iptv:C", "C", none, none, none, "IPTV Channel - General", ["General"], "http://s/c"⟩]

/-- Two env channels, one of them in the group literally labelled `All`. -/
def exChannelsAllNews : List ChannelEnv :=
  [⟨"channel-0", "AllChan", "http://s/0", none, "All", "AllChan"⟩,
   ⟨"channel-1", "NewsChan", "http://s/1", none, "News", "NewsChan"⟩]

/-- Playlist items: two in group `News`, one in group `Sports`, in document
order. -/
def exItemsNewsSports : List M3UItem :=
  [⟨"News One", "http://s/1", "", "", "", "News"⟩,
   ⟨"Sports One", "http://s/2", "", "", "", "Sports"⟩,
   ⟨"News Two", "http://s/3", "", "", "", "News"⟩]

/-- An inbound relay request carrying a `Range` header. -/
def reqRange : InboundRequest :=
  { urlParam := "http://h/v.mp4", headers := [("Range", "bytes=100-")] }

/-- A `206 Partial Content` origin response with range headers. -/
def resp206 : OriginResponse :=
  { status := 206
    contentType := "video/mp4"
    headers := [("Content-Range", "bytes 100-199/1000"), ("Accept-Ranges", "bytes"),
                ("Content-Length", "100")] }

/-- An inbound relay request for a playlist URL. -/
def reqC5 : InboundRequest := { urlParam := "http://h/x.m3u8", headers := [] }

/-- A query that sets no parameter at all. -/
def qEmpty : RawQuery := fun _ => none

/-- A query that supplies only `m3uUrl`. -/
def qSetM3u : RawQuery := fun k =>
  match k with
  | PKey.m3uUrl => some "http://a/p.m3u"
  | _ => none

/-- A store remembering a `host` from some earlier request. -/
def stHost : ParamsMap := fun k =>
  match k with
  | PKey.host => "h.example"
  | _ => ""

/-- A published env-mode state holding one channel, one category and one
guide entry, as it stands before a failing refresh. -/
def priorEnvState : EnvState :=
  { channels := [⟨"channel-0", "News One", "http://s/1", none, "News", "news.one"⟩]
    categories := ["News"]
    epgData := [("news.one", [⟨0, 10, "T", ""⟩])] }

/-! ### Theorems -/

/-- Reading a cons cell of the guide dictionary. -/
theorem epgLookup_cons (k : String) (l : List Programme) (rest : EpgMap) (c : String) :
    epgLookup ((k, l) :: rest) c = if c = k then l else epgLookup rest c := by
  by_cases h : c = k
  · rw [if_pos h]
    simp only [epgLookup, List.lookup]
    rw [show (c == k) = true from beq_iff_eq.mpr h]
  · rw [if_neg h]
    simp only [epgLookup, List.lookup]
    rw [show (c == k) = false from beq_eq_false_iff_ne.mpr h]

/-- Appending an entry for key `c` extends exactly bucket `c` by one. -/
theorem epgLookup_epgPush_self (m : EpgMap) (c : String) (e : Programme) :
    epgLookup (epgPush m c e) c = epgLookup m c ++ [e] := by
  induction m with
  | nil =>
    show epgLookup [(c, [e])] c = epgLookup [] c ++ [e]
    rw [epgLookup_cons, if_pos rfl]
    rfl
  | cons kv rest ih =>
    obtain ⟨k, l⟩ := kv
    simp only [epgPush]
    by_cases h : k = c
    · rw [if_pos h]
      subst h
      rw [epgLookup_cons, if_pos rfl, epgLookup_cons, if_pos rfl]
    · rw [if_neg h, epgLookup_cons, if_neg (fun hc => h hc.symm), epgLookup_cons,
        if_neg (fun hc => h hc.symm)]
      exact ih

/-- Appending an entry for another key leaves bucket `c` unchanged. -/
theorem epgLookup_epgPush_other (m : EpgMap) (c c' : String) (e : Programme)
    (h : c' ≠ c) : epgLookup (epgPush m c' e) c = epgLookup m c := by
  induction m with
  | nil =>
    show epgLookup [(c', [e])] c = epgLookup [] c
    rw [epgLookup_cons, if_neg (fun hc => h hc.symm)]
  | cons kv rest ih =>
    obtain ⟨k, l⟩ := kv
    simp only [epgPush]
    by_cases hk : k = c'
    · rw [if_pos hk]
      subst hk
      rw [epgLookup_cons, if_neg (fun hc => h hc.symm), epgLookup_cons,
        if_neg (fun hc => h hc.symm)]
    · rw [if_neg hk, epgLookup_cons, epgLookup_cons]
      by_cases hck : c = k
      · rw [if_pos hck, if_pos hck]
      · rw [if_neg hck, if_neg hck]
        exact ih

/-- Generalized accumulator form of the grouping-loop characterization. -/
theorem buildEpgMap_go (ps : List RawProgramme) (m : EpgMap) (c : String) :
    epgLookup (ps.foldl (fun m p => epgPush m p.channel (progOf p)) m) c =
      epgLookup m c ++ (ps.filter fun p => p.channel == c).map progOf := by
  induction ps generalizing m with
  | nil => simp
  | cons p rest ih =>
    simp only [List.foldl_cons, List.filter_cons]
    by_cases h : p.channel = c
    · subst h
      rw [show (p.channel == p.channel) = true from beq_self_eq_true p.channel]
      simp only [ih, epgLookup_epgPush_self, List.map_cons]
      simp
    · rw [show (p.channel == c) = false from beq_eq_false_iff_ne.mpr h]
      rw [ih, epgLookup_epgPush_other _ _ _ _ h]
      simp

/-- C6: for every guide document, the parser's output mapping assigns to each
guide-channel-id exactly the programmes whose `channel` attribute equals that
id, in document order; grouping performs no re-sorting by start time
(`fetchEPGEnv`, src/server.js lines 72-83, and `fetchEPGFromUrl`,
lines 436-445). -/
theorem epg_grouping_document_order (ps : List RawProgramme) (c : String) :
    epgLookup (buildEpgMap ps) c = (ps.filter fun p => p.channel == c).map progOf := by
  have h := buildEpgMap_go ps [] c
  simpa [buildEpgMap, epgLookup, List.lookup] using h

/-- A stamp in the spec's offset-bearing XMLTV format is an Invalid Date
under plugin-less dayjs: it is twenty characters long, so it is not a bare
fourteen-digit stamp. -/
theorem dayjsNoPluginParse_xmltv (s : String) (h : xmltvOffsetStamp s = true) :
    dayjsNoPluginParse s = none := by
  have hlen : s.data.length = 20 := by
    unfold xmltvOffsetStamp at h
    simp only [Bool.and_eq_true, decide_eq_true_eq] at h
    exact h.1.1.1.1
  unfold dayjsNoPluginParse
  rw [if_neg]
  intro hc
  rw [hc.1] at hlen
  exact absurd hlen (by decide)

/-- When every start stamp of the list is in the offset format, each scan
condition is false (the parsed start is Invalid), so the whole scan falls
through to `(none, none)`. -/
theorem scanNowNextRaw_invalid (t : Int) (l : List StoredProgramme)
    (h : ∀ p ∈ l, xmltvOffsetStamp p.start = true) :
    scanNowNextRaw t l = (none, none) := by
  induction l with
  | nil => rfl
  | cons p rest ih =>
    have hp := dayjsNoPluginParse_xmltv p.start (h p (List.mem_cons_self p rest))
    have hcond : (dayjsIsAfterB t (dayjsNoPluginParse p.start) &&
        dayjsIsBeforeB t (dayjsNoPluginParse p.stop)) = false := by
      rw [hp]
      rfl
    have hstep : scanNowNextRaw t (p :: rest) = scanNowNextRaw t rest := by
      show (if (dayjsIsAfterB t (dayjsNoPluginParse p.start) &&
          dayjsIsBeforeB t (dayjsNoPluginParse p.stop)) = true then
          ((some p, rest.head?) :
            Option StoredProgramme × Option StoredProgramme)
        else scanNowNextRaw t rest) = scanNowNextRaw t rest
      rw [hcond]
      rfl
    rw [hstep]
    exact ih fun q hq => h q (List.mem_cons_of_mem p hq)

/-- C1 counterexample: with one channel in category `News` published, a
failed playlist fetch leaves zero channels and an empty category set, and a
failed guide fetch leaves an empty guide map — the prior snapshot is not
retained (`fetchM3UEnv` / `fetchEPGEnv` assign empty state in their `catch`
blocks, src/server.js lines 54-58 and 86-89). -/
theorem refresh_failure_counterexample :
    (fetchM3UEnvModel true (Except.error "network error") priorEnvState).channels = [] ∧
    priorEnvState.channels.length = 1 ∧
    (fetchM3UEnvModel true (Except.error "network error") priorEnvState).categories = [] ∧
    priorEnvState.categories = ["News"] ∧
    (fetchEPGEnvModel true (Except.error "network error") priorEnvState).epgData = [] ∧
    priorEnvState.epgData ≠ [] := by
  refine ⟨rfl, rfl, rfl, rfl, rfl, ?_⟩
  decide

/-- C1 (amended): a failed env-mode playlist refresh resets the published
state to an empty catalog (`channels := []`, `categories := ∅`) rather than
retaining the prior snapshot, and a failed guide refresh likewise resets
`epgData := {}`. -/
theorem refresh_failure_resets_state (e : String) (prior : EnvState) :
    fetchM3UEnvModel true (Except.error e) prior =
      { prior with channels := [], categories := [] } ∧
    fetchEPGEnvModel true (Except.error e) prior =
      { prior with epgData := [] } :=
  ⟨rfl, rfl⟩

/-- C2 counterexample: under the claim's reading of the stamps as instants
(the digit value of the fourteen-digit prefix; all offsets are `+0000`),
`t = 2024-01-01 10:30` satisfies `start ≤ t < stop` for the "Morning"
programme, yet the resolver returns no current: the offset-bearing stamps
are Invalid Dates under plugin-less dayjs, so the containment test is always
false. -/
theorem nowNext_parse_failure_counterexample :
    (decDigitsVal "20240101100000".data ≤ 20240101103000 ∧
      (20240101103000 : Nat) < decDigitsVal "20240101110000".data) ∧
    (getNowNextFromEPGS exEpgS "g" 20240101103000).1 = none := by
  decide

/-- C2 (amended): on a guide whose programme stamps are in the spec's
offset-bearing XMLTV format, the Now/Next resolver returns no current
programme for any guide id and any query instant: the repository loads dayjs
without the `customParseFormat` plugin, so `dayjs(start, 'YYYYMMDDHHmmss ZZ')`
ignores the format, the stamps parse to Invalid Date, and the strict
`isAfter`/`isBefore` comparisons are always false. -/
theorem nowNext_no_current_under_invalid_parse (m : EpgMapS) (c : String) (t : Int)
    (h : ∀ p ∈ epgLookupS m c, xmltvOffsetStamp p.start = true) :
    (getNowNextFromEPGS m c t).1 = none := by
  show (scanNowNextRaw t (epgLookupS m c)).1 = none
  rw [scanNowNextRaw_invalid t _ h]

/-- Witness for C2's theorem: at the concrete two-programme guide, the
resolver returns no current at 10:30. -/
theorem nowNext_no_current_under_invalid_parse_witness :
    (getNowNextFromEPGS exEpgS "g" 20240101103000).1 = none :=
  nowNext_no_current_under_invalid_parse exEpgS "g" 20240101103000 (by decide)

/-- C3 counterexample: at `t = 2024-01-01 09:00` no programme contains t and
a future programme exists under the claim's reading (`start > t` for
"Morning"), yet both resolvers return an absent next — the server.js
resolver never searches for a future entry and part_013's
`dayjs(p.start, fmt).isAfter(now)` is false for every Invalid-Date stamp. -/
theorem nowNext_no_future_search_counterexample :
    ((20240101090000 : Nat) < decDigitsVal "20240101100000".data) ∧
    (getNowNextFromEPGS exEpgS "g" 20240101090000).1 = none ∧
    (getNowNextFromEPGS exEpgS "g" 20240101090000).2 = none ∧
    (getNowNextP13S exEpgS "g" 20240101090000).2 = none := by
  decide

/-- C3 (amended): over spec-format (offset-bearing) XMLTV stamps both
resolvers answer `(absent, absent)` for every guide id and every query
instant — the server.js resolver finds no current and therefore also no
next, and part_013's independently searched first-future next never fires
either, since every parsed start is an Invalid Date; an unknown guide id
(or empty sequence) yields `(absent, absent)` unconditionally. -/
theorem nowNext_both_absent_under_invalid_parse :
    (∀ (m : EpgMapS) (c : String) (t : Int),
        (∀ p ∈ epgLookupS m c, xmltvOffsetStamp p.start = true) →
        getNowNextFromEPGS m c t = (none, none)) ∧
    (∀ (epg : EpgMapS) (ch : String) (t : Int),
        (∀ p ∈ epgLookupS epg ch, xmltvOffsetStamp p.start = true) →
        getNowNextP13S epg ch t = (none, none)) ∧
    (∀ (m : EpgMapS) (c : String) (t : Int),
        List.lookup c m = none →
        getNowNextFromEPGS m c t = (none, none) ∧
        getNowNextP13S m c t = (none, none)) := by
  refine ⟨?_, ?_, ?_⟩
  · intro m c t h
    exact scanNowNextRaw_invalid t _ h
  · intro epg ch t h
    have h1 : (epgLookupS epg ch).find? (fun p =>
        dayjsIsAfterB t (dayjsNoPluginParse p.start) &&
          dayjsIsBeforeB t (dayjsNoPluginParse p.stop)) = none := by
      apply List.find?_eq_none.mpr
      intro p hp hc
      rw [dayjsNoPluginParse_xmltv p.start (h p hp)] at hc
      exact Bool.false_ne_true hc
    have h2 : (epgLookupS epg ch).find? (fun p =>
        dayjsIsBeforeB t (dayjsNoPluginParse p.start)) = none := by
      apply List.find?_eq_none.mpr
      intro p hp hc
      rw [dayjsNoPluginParse_xmltv p.start (h p hp)] at hc
      exact Bool.false_ne_true hc
    show ((epgLookupS epg ch).find? _, (epgLookupS epg ch).find? _) =
      ((none : Option StoredProgramme), (none : Option StoredProgramme))
    rw [h1, h2]
  · intro m c t hl
    have he : epgLookupS m c = [] := by
      unfold epgLookupS
      rw [hl]
    constructor
    · show scanNowNextRaw t (epgLookupS m c) = (none, none)
      rw [he]
      rfl
    · show ((epgLookupS m c).find? _, (epgLookupS m c).find? _) =
        ((none : Option StoredProgramme), (none : Option StoredProgramme))
      rw [he]
      rfl

/-- Witness for C3's theorem: at the concrete two-programme guide both
resolvers answer `(none, none)` at 10:30. -/
theorem nowNext_both_absent_under_invalid_parse_witness :
    getNowNextFromEPGS exEpgS "g" 20240101103000 = (none, none) ∧
    getNowNextP13S exEpgS "g" 20240101103000 = (none, none) :=
  ⟨nowNext_both_absent_under_invalid_parse.1 exEpgS "g" 20240101103000 (by decide),
   nowNext_both_absent_under_invalid_parse.2.1 exEpgS "g" 20240101103000 (by decide)⟩

/-- The line loop emits exactly one channel per adjacent line pair whose
first component is a trimmed `#EXTINF:` line and whose second component is a
non-empty non-`#` line, in document order. -/
theorem parseM3ULoop_eq_filterMap (lines : List String) :
    parseM3ULoop lines =
      (lines.zip lines.tail).filterMap fun p =>
        if (p.1.trim).startsWith "#EXTINF:" ∧ p.2 ≠ "" ∧ ¬p.2.startsWith "#" then
          some (mkChannel p.1 p.2)
        else none := by
  induction lines with
  | nil => rfl
  | cons l rest ih =>
    cases rest with
    | nil =>
      simp [parseM3ULoop]
    | cons nx rest2 =>
      have hunf : parseM3ULoop (l :: nx :: rest2) =
          (if (l.trim).startsWith "#EXTINF:" then
            if nx ≠ "" ∧ ¬nx.startsWith "#" then [mkChannel l nx] else []
          else []) ++ parseM3ULoop (nx :: rest2) := rfl
      rw [hunf, ih]
      simp only [List.tail_cons, List.zip_cons_cons, List.filterMap_cons]
      by_cases h1 : (l.trim).startsWith "#EXTINF:"
      · by_cases h2 : nx ≠ "" ∧ ¬nx.startsWith "#"
        · rw [if_pos h1, if_pos h2, if_pos ⟨h1, h2.1, h2.2⟩]
          rfl
        · rw [if_pos h1, if_neg h2, if_neg fun hc => h2 ⟨hc.2.1, hc.2.2⟩]
          rfl
      · rw [if_neg h1, if_neg fun hc => h1 hc.1]
        rfl

/-- C7: the playlist parser emits one channel record per `#EXTINF` line whose
immediately following line exists and is a non-comment (non-`#`, non-empty)
line — that line, trimmed, is the record's playback URL (`mkChannel`) — and
an `#EXTINF` line not so followed produces no record; the loop is a total
function of the line list, so a dropped entry never aborts the parse
(`parseM3U`, src/addon.js lines 31-74). -/
theorem parseM3U_characterization (text : String) :
    parseM3U text =
      ((text.splitOn "\n").zip (text.splitOn "\n").tail).filterMap fun p =>
        if (p.1.trim).startsWith "#EXTINF:" ∧ p.2 ≠ "" ∧ ¬p.2.startsWith "#" then
          some (mkChannel p.1 p.2)
        else none :=
  parseM3ULoop_eq_filterMap (text.splitOn "\n")

/-- The JS slice window `[s, s + 100)` never holds more than 100 elements,
for any (possibly negative) start index. -/
theorem jsSlice_window_le {α : Type} (l : List α) (s : Int) :
    (jsSlice l s (s + 100)).length ≤ 100 := by
  unfold jsSlice jsSliceNorm
  simp only [List.length_drop, List.length_take]
  split <;> split <;> omega

/-- For a non-negative start index the JS slice window is drop-then-take. -/
theorem jsSlice_nonneg {α : Type} (l : List α) (s : Nat) :
    jsSlice l (s : Int) ((s : Int) + 100) = (l.drop s).take 100 := by
  unfold jsSlice jsSliceNorm
  have hs : ¬((s : Int) < 0) := by omega
  have hs100 : ¬((s : Int) + 100 < 0) := by omega
  rw [if_neg hs, if_neg hs100]
  have h1 : ((s : Int)).toNat = s := by omega
  have h2 : ((s : Int) + 100).toNat = s + 100 := by omega
  rw [h1, h2]
  by_cases hle : s ≤ l.length
  · rw [Nat.min_eq_left hle, List.drop_take]
    have h3 : min (s + 100) l.length - s = min 100 (l.length - s) := by omega
    rw [h3]
    rcases Nat.le_total 100 (l.length - s) with h4 | h4
    · rw [Nat.min_eq_left h4]
    · rw [Nat.min_eq_right h4]
      have h5 : (l.drop s).length = l.length - s := List.length_drop s l
      rw [List.take_eq_take]
      omega
  · have ha : l.length ≤ s := by omega
    have hb : (l.take (min (s + 100) l.length)).length ≤ l.length := by
      rw [List.length_take]
      exact Nat.min_le_right _ _
    rw [Nat.min_eq_right ha, List.drop_eq_nil_of_le hb, List.drop_eq_nil_of_le ha,
      List.take_nil]

/-- C9: the addon.js catalog handler never returns more than 100 metas, for
any request and channel list; and for a request whose `skip` extra parses to
a non-negative offset s (0 when absent or unparsable), it returns exactly the
channels at positions s through s + 99, in order (src/addon.js
lines 94-119). -/
theorem addon_catalog_pagination :
    (∀ (ty cid : String) (skipRaw : Option String) (channels : List ChannelA),
        (addonCatalogHandler ty cid skipRaw channels).length ≤ 100) ∧
    (∀ (skipRaw : Option String) (channels : List ChannelA) (s : Nat),
        jsParseIntOr0 skipRaw = (s : Int) →
        addonCatalogHandler "channel" "iptv_channels" skipRaw channels =
          ((channels.drop s).take 100).map metaOfA) := by
  constructor
  · intro ty cid skipRaw channels
    unfold addonCatalogHandler
    split
    · rw [List.length_map]
      exact jsSlice_window_le channels (jsParseIntOr0 skipRaw)
    · simp
  · intro skipRaw channels s h
    unfold addonCatalogHandler
    rw [if_pos ⟨rfl, rfl⟩, h]
    show (jsSlice channels (s : Int) ((s : Int) + 100)).map metaOfA =
      ((channels.drop s).take 100).map metaOfA
    rw [jsSlice_nonneg]

/-- Witness for C9's theorem: a three-channel list with `skip = "1"` yields
exactly the channels at positions 1 and 2, and at most 100 metas. -/
theorem addon_catalog_pagination_witness :
    (addonCatalogHandler "channel" "iptv_channels" (some "1") exChannelsA).length ≤ 100 ∧
    addonCatalogHandler "channel" "iptv_channels" (some "1") exChannelsA =
      ((exChannelsA.drop 1).take 100).map metaOfA :=
  ⟨addon_catalog_pagination.1 "channel" "iptv_channels" (some "1") exChannelsA,
   addon_catalog_pagination.2 (some "1") exChannelsA 1 (by decide)⟩

/-- C8 counterexample: with a channel whose group label is literally `All`,
filtering by the category label `All` returns every channel (the handler
treats `All` as "no filter"), not exactly the channels labelled `All`. -/
theorem catalog_filter_all_counterexample :
    (catalogEnv "All" exChannelsAllNews).length = 2 ∧
    (exChannelsAllNews.filter fun ch => ch.category == "All").length = 1 := by
  decide

/-- C8 (amended): for every parsed playlist and every category label other
than the reserved filter value `All` (and other than the empty, JS-falsy
genre), the env-mode catalog listing returns exactly the channels whose
group label equals that category, in playlist-document order; `All` and an
absent genre return the full listing (src/server.js lines 139-156). -/
theorem catalog_filter_exact (g : String) (items : List M3UItem)
    (hg : g ≠ "") (hA : g ≠ "All") :
    catalogEnv g (envChannels items) =
      ((envChannels items).filter fun ch => ch.category == g).map metaOfEnv := by
  unfold catalogEnv
  rw [if_pos ⟨hg, hA⟩]

/-- Witness for C8's theorem: the two-News/one-Sports playlist filtered by
`News` yields exactly the two News entries, in document order. -/
theorem catalog_filter_exact_witness :
    catalogEnv "News" (envChannels exItemsNewsSports) =
      ((envChannels exItemsNewsSports).filter fun ch => ch.category == "News").map metaOfEnv ∧
    (catalogEnv "News" (envChannels exItemsNewsSports)).map (fun m => m.name) =
      ["News One", "News Two"] :=
  ⟨catalog_filter_exact "News" exItemsNewsSports (by decide) (by decide), by decide⟩

/-- C4 counterexample: the inbound request carries `Range: bytes=100-`, but
the header set the relay sends to the origin contains no `Range` at all; and
for a `206 Partial Content` origin response with a `Content-Range`, the
client receives status 200 with neither `Content-Range` nor
`Content-Length`. -/
theorem relay_range_counterexample :
    reqRange.headers.lookup "Range" = some "bytes=100-" ∧
    ((relayProxy reqRange "VLC/3.0.18 LibVLC/3.0.18" [OriginStep.final resp206]).1.getD []).lookup "Range" = none ∧
    (relayProxy reqRange "VLC/3.0.18 LibVLC/3.0.18" [OriginStep.final resp206]).2.status = 200 ∧
    resp206.status = 206 ∧
    (relayProxy reqRange "VLC/3.0.18 LibVLC/3.0.18" [OriginStep.final resp206]).2.headers.lookup "Content-Range" = none ∧
    (relayProxy reqRange "VLC/3.0.18 LibVLC/3.0.18" [OriginStep.final resp206]).2.headers.lookup "Content-Length" = none := by
  decide

/-- C4 (amended): the relay ignores the inbound request's headers entirely —
its outcome depends only on the `url` parameter, the header set sent to the
origin never contains `Range`, and on the non-redirect success path the
client response has status 200 (whatever the origin's status) with the fixed
header set: hardcoded `Accept-Ranges: bytes`, no `Content-Range`, no
`Content-Length`; only the content-type is taken from the origin (with a
URL-extension fallback). -/
theorem relay_fixed_headers :
    (∀ (req1 req2 : InboundRequest) (ua : String) (chain : List OriginStep),
        req1.urlParam = req2.urlParam →
        relayProxy req1 ua chain = relayProxy req2 ua chain) ∧
    (∀ (req : InboundRequest) (ua : String) (chain : List OriginStep),
        ((relayProxy req ua chain).1.getD []).lookup "Range" = none) ∧
    (∀ (req : InboundRequest) (ua : String) (chain : List OriginStep) (r : OriginResponse),
        fetchFollow 5 chain = .ok r →
        ¬(r.status ∈ [301, 302, 303, 307, 308] ∧ (r.headers.lookup "location").isSome) →
        jsDecodeURIComponent req.urlParam ≠ "" →
        (relayProxy req ua chain).2.status = 200 ∧
        (relayProxy req ua chain).2.headers.lookup "Content-Range" = none ∧
        (relayProxy req ua chain).2.headers.lookup "Content-Length" = none ∧
        (relayProxy req ua chain).2.headers.lookup "Accept-Ranges" = some "bytes") := by
  refine ⟨?_, ?_, ?_⟩
  · intro req1 req2 ua chain h
    unfold relayProxy
    rw [h]
  · intro req ua chain
    simp only [relayProxy]
    split
    · rfl
    · split
      · split
        · rfl
        · rfl
      · rfl
  · intro req ua chain r hf hr hu
    have hnn : relayProxy req ua chain =
        (some (proxyForwardHeaders ua (jsDecodeURIComponent req.urlParam)),
         { status := 200
           headers := proxyResponseHeaders (jsDecodeURIComponent req.urlParam) r }) := by
      simp only [relayProxy]
      rw [if_neg hu, hf]
      show (if r.status ∈ [301, 302, 303, 307, 308] ∧ (r.headers.lookup "location").isSome
          then _ else _) = _
      rw [if_neg hr]
    rw [hnn]
    exact ⟨rfl, rfl, rfl, rfl⟩

/-- Witness for C4's theorem: at the concrete `206` origin response the
relay's client response is `200` with the fixed header set. -/
theorem relay_fixed_headers_witness :
    (relayProxy reqRange "VLC/3.0.18 LibVLC/3.0.18" [OriginStep.final resp206]).2.status = 200 ∧
    (relayProxy reqRange "VLC/3.0.18 LibVLC/3.0.18" [OriginStep.final resp206]).2.headers.lookup "Content-Range" = none ∧
    (relayProxy reqRange "VLC/3.0.18 LibVLC/3.0.18" [OriginStep.final resp206]).2.headers.lookup "Content-Length" = none ∧
    (relayProxy reqRange "VLC/3.0.18 LibVLC/3.0.18" [OriginStep.final resp206]).2.headers.lookup "Accept-Ranges" = some "bytes" :=
  relay_fixed_headers.2.2 reqRange "VLC/3.0.18 LibVLC/3.0.18" [OriginStep.final resp206]
    resp206 rfl (by decide) (by decide)

/-- C5: a response chain opening with six redirects exhausts the redirect
budget of 5, the fetch rejects, and the handler's `catch` answers the client
with a 502 upstream-failure response — it neither follows further redirects
nor leaves the request unanswered. -/
theorem relay_redirect_bound (req : InboundRequest) (ua : String)
    (h : jsDecodeURIComponent req.urlParam ≠ "")
    (l1 l2 l3 l4 l5 l6 : String) (rest : List OriginStep) :
    (relayProxy req ua
        ([OriginStep.redirectTo l1, OriginStep.redirectTo l2, OriginStep.redirectTo l3,
          OriginStep.redirectTo l4, OriginStep.redirectTo l5, OriginStep.redirectTo l6] ++
          rest)).2.status = 502 := by
  simp only [relayProxy]
  rw [if_neg h]
  rfl

/-- Witness for C5's theorem: six concrete 302 hops yield a 502 to the
client. -/
theorem relay_redirect_bound_witness :
    (relayProxy reqC5 "VLC/3.0.18 LibVLC/3.0.18"
        ([OriginStep.redirectTo "http://h/1", OriginStep.redirectTo "http://h/2",
          OriginStep.redirectTo "http://h/3", OriginStep.redirectTo "http://h/4",
          OriginStep.redirectTo "http://h/5", OriginStep.redirectTo "http://h/6"] ++
          [])).2.status = 502 :=
  relay_redirect_bound reqC5 "VLC/3.0.18 LibVLC/3.0.18" (by decide)
    "http://h/1" "http://h/2" "http://h/3" "http://h/4" "http://h/5" "http://h/6" []

/-- C10: for each of the six parameters, a request that omits the parameter
has it substituted from the process-wide `global._lastParams` store (filled
by whichever request last supplied it); concretely, the same all-empty
request yields different `m3uUrl` results depending on whether another
request supplied one earlier — `readParams` is not a function of the current
request alone (src/server.js lines 332-368). -/
theorem readParams_global_leak :
    (∀ (q : RawQuery) (st : ParamsMap) (k : PKey),
        q k = none → st k ≠ "" → (readParams q st).1 k = st k) ∧
    (readParams qEmpty (runStore [qSetM3u] emptyStore)).1 PKey.m3uUrl ≠
      (readParams qEmpty (runStore [] emptyStore)).1 PKey.m3uUrl := by
  constructor
  · intro q st k hq hst
    show (if decodeParam (q k) ≠ "" then decodeParam (q k)
          else if st k ≠ "" then st k else decodeParam (q k)) = st k
    rw [hq]
    show (if ("" : String) ≠ "" then ("" : String) else if st k ≠ "" then st k else "") = st k
    rw [if_neg (by simp), if_pos hst]
  · decide

/-- Witness for C10's theorem: a request omitting `host` picks up the
`host` remembered from an earlier client's request. -/
theorem readParams_global_leak_witness :
    (readParams qEmpty stHost).1 PKey.host = "h.example" :=
  readParams_global_leak.1 qEmpty stHost PKey.host rfl (by decide)
